import Mathlib

/-!
Shallow embedding of `src/coordinates.py` from the CoordinateManagement
repository, together with proofs about the claims of its specification.

Modelling conventions:
* Python `float` values are modelled as `ℚ` (exact rationals); the claims
  under study use a tolerance of `1e-5`, far above double-precision error.
* Python `round(x, 5)` and the `:.5f` format specifier are modelled with
  round-half-to-even at the fifth decimal, Python's documented tie rule.
* The regular expression
  `^(\d{1,3})°\s?([0-5]?[0-9])['´]\s?([0-5]?[0-9].?\d*)"\s?([NSEWO])$`
  used by `dms_to_dd` is hand-compiled into a deterministic matcher below,
  preserving its quirks: the unescaped `.` (which matches any character
  except a newline), the greedy/backtracking behaviour of `?` and `*`, and
  the semantics of the `$` anchor, which also matches just before a single
  trailing newline.  `\d` and digit classes are modelled over ASCII digits.
* Python `float(str)` is modelled by `pyFloat` below, covering signs,
  underscores between digits, a fractional part and an exponent;
  `inf`/`nan` spellings cannot arise from the regex groups (each group
  starts with an ASCII digit) and are not representable in `ℚ`, so they
  are mapped to `none`.
* Exceptions are modelled with `Except PyErr`; `ValueError` and
  `AssertionError` are distinguished, including their messages.
-/

section
/- The Batteries rational-number operations are `@[irreducible]`, which
blocks `decide`-style evaluation of the concrete coordinate computations
below; re-allow unfolding (this affects elaboration only — the kernel
checks the resulting proofs in full either way). -/
set_option allowUnsafeReducibility true
attribute [semireducible] Rat.mul Rat.add Rat.sub Rat.inv Rat.ofScientific
end

/-- Python exception values raised by the code under study. -/
inductive PyErr : Type
  | valueError : String → PyErr
  | assertionError : String → PyErr
deriving DecidableEq

deriving instance DecidableEq for Except

namespace CoordinateFormatter

/-- Decimal digit character, as produced by Python decimal formatting. -/
def digitChar : ℕ → Char
  | 0 => '0'
  | 1 => '1'
  | 2 => '2'
  | 3 => '3'
  | 4 => '4'
  | 5 => '5'
  | 6 => '6'
  | 7 => '7'
  | 8 => '8'
  | _ => '9'

/-- Numeric value of a decimal digit character. -/
def digitVal (c : Char) : ℕ := c.toNat - 48

/-- Fuelled helper for `natDigits`; structural recursion on the fuel keeps
the definition reducible by the kernel. -/
def natDigitsAux : ℕ → ℕ → List Char
  | 0, _ => []
  | f + 1, n =>
    if n < 10 then [digitChar n]
    else natDigitsAux f (n / 10) ++ [digitChar (n % 10)]

/-- Decimal digits of a natural number, most significant first: models the
Python decimal rendering of a nonnegative integer, as in `str(n)` or an
f-string interpolation of an `int`. -/
def natDigits (n : ℕ) : List Char := natDigitsAux (n + 1) n

/-- Round half to even: models the tie-breaking rule of Python `round`
and of Python fixed-point formatting. -/
def rhe (x : ℚ) : ℤ :=
  if Int.fract x < 1 / 2 then ⌊x⌋
  else if 1 / 2 < Int.fract x then ⌊x⌋ + 1
  else if ⌊x⌋ % 2 = 0 then ⌊x⌋ else ⌊x⌋ + 1

/-- Python `round(x, 5)`. -/
def round5 (x : ℚ) : ℚ := (rhe (x * 100000) : ℚ) / 100000

/-- Zero-padded five-digit decimal rendering of `k < 100000`. -/
def pad5 (k : ℕ) : List Char :=
  List.replicate (5 - (natDigits k).length) '0' ++ natDigits k

/-- Python `f"{x:.5f}"` for a nonnegative `x`: the value is rounded to five
decimal places and printed with exactly five digits after the point. -/
def fmt5 (x : ℚ) : List Char :=
  natDigits ((rhe (x * 100000)).toNat / 100000) ++ '.' :: pad5 ((rhe (x * 100000)).toNat % 100000)

/-- Numeric value displayed by the five-decimal seconds field `fmt5 x`. -/
def fmt5Val (x : ℚ) : ℚ := ((rhe (x * 100000)).toNat : ℚ) / 100000

/-- Python `degrees: int = abs(int(coordinate))`: `int` truncates toward
zero, so composing with `abs` yields `⌊|c|⌋`. -/
def ddDegrees (c : ℚ) : ℕ := (⌊|c|⌋).toNat

/-- Python `minutes: float = (abs(coordinate) % 1) * 60`; on a nonnegative
float, `% 1` is the fractional part. -/
def ddMinutes (c : ℚ) : ℚ := Int.fract |c| * 60

/-- Python `seconds: float = (minutes % 1) * 60`. -/
def ddSeconds (c : ℚ) : ℚ := Int.fract (ddMinutes c) * 60

/-- The character list of `dd_to_dms`'s result:
`f"{degrees}°{int(minutes)}'{seconds:.5f}\""`. -/
def dd_to_dms_chars (c : ℚ) : List Char :=
  natDigits (ddDegrees c) ++
    '°' :: (natDigits (⌊ddMinutes c⌋).toNat ++ '\'' :: (fmt5 (ddSeconds c) ++ ['"']))

/-- `CoordinateFormatter.dd_to_dms` from `src/coordinates.py`. -/
def dd_to_dms (c : ℚ) : String := String.mk (dd_to_dms_chars c)

/-- `CoordinateFormatter.latdd_to_latdms`: asserts `-90 <= c <= 90`, then
appends `"N"` for strictly positive coordinates and `"S"` otherwise. -/
def latdd_to_latdms (c : ℚ) : Except PyErr String :=
  if -90 ≤ c ∧ c ≤ 90 then
    .ok (String.mk (dd_to_dms_chars c ++ [if 0 < c then 'N' else 'S']))
  else .error (.assertionError "Latitude should be between -90 and 90 degrees")

/-- `CoordinateFormatter.londd_to_londms`: asserts `-180 <= c <= 180`, then
appends `"E"` for strictly positive coordinates and `"W"` otherwise. -/
def londd_to_londms (c : ℚ) : Except PyErr String :=
  if -180 ≤ c ∧ c ≤ 180 then
    .ok (String.mk (dd_to_dms_chars c ++ [if 0 < c then 'E' else 'W']))
  else .error (.assertionError "Longitude should be between -180 and 180 degrees")

/-- Characters matched by Python's `\s` (and stripped by `float`) for `str`
patterns: ASCII whitespace plus the Unicode space characters. -/
def isPySpace (c : Char) : Bool :=
  c = ' ' || c = '\t' || c = '\n' || c = '\x0b' || c = '\x0c' || c = '\r' ||
  c = '\x1c' || c = '\x1d' || c = '\x1e' || c = '\x1f' || c = '\x85' || c = '\xa0' ||
  c = ' ' || c = ' ' || c = ' ' || c = ' ' || c = ' ' ||
  c = ' ' || c = ' ' || c = ' ' || c = ' ' || c = ' ' ||
  c = ' ' || c = ' ' || c = ' ' || c = ' ' || c = ' ' ||
  c = ' ' || c = '　'

/-- The character class `['´]` of the minutes marker. -/
def isQuoteMark (c : Char) : Bool := c = '\'' || c = '´'

/-- The hemisphere-letter class `[NSEWO]`. -/
def isDirLetter (c : Char) : Bool :=
  c = 'N' || c = 'S' || c = 'E' || c = 'W' || c = 'O'

/-- The character class `[0-5]`. -/
def isLow5 (c : Char) : Bool := '0' ≤ c && c ≤ '5'

/-- `\s?`: consumes one whitespace character when present.  In the pattern
every `\s?` is followed by a construct that cannot match a whitespace
character (a digit class or `[NSEWO]`), so the greedy choice is the only
one that can succeed and the compilation is deterministic. -/
def optSpace (cs : List Char) : List Char :=
  match cs with
  | c :: r => if isPySpace c then r else cs
  | [] => []

/-- `^(\d{1,3})°`: one to three digits, then the degree sign.  `\d{1,3}` is
greedy; since a digit can never match `°`, at most one candidate length can
be followed by `°`, namely the maximal digit run capped at three. -/
def matchDegrees (cs : List Char) : Option (List Char × List Char) :=
  let ds := (cs.takeWhile Char.isDigit).take 3
  if ds.isEmpty then none
  else
    match cs.drop ds.length with
    | c :: r => if c = '°' then some (ds, r) else none
    | [] => none

/-- `([0-5]?[0-9])['´]`: the greedy two-digit candidate is tried first; a
digit can never match `['´]`, so at most one candidate succeeds. -/
def matchMinutes : List Char → Option (List Char × List Char)
  | c1 :: c2 :: c3 :: rest =>
    if isLow5 c1 && c2.isDigit && isQuoteMark c3 then some ([c1, c2], rest)
    else if c1.isDigit && isQuoteMark c2 then some ([c1], c3 :: rest)
    else none
  | [c1, c2] => if c1.isDigit && isQuoteMark c2 then some ([c1], []) else none
  | _ => none

/-- `"\s?([NSEWO])$` after the seconds group: a double quote, an optional
whitespace character, a hemisphere letter, and the `$` anchor, which in
Python matches at the end of the string or just before one final newline. -/
def matchTail : List Char → Option Char
  | q :: rest =>
    if q = '"' then
      match optSpace rest with
      | d :: rest2 =>
        if isDirLetter d ∧ (rest2 = [] ∨ rest2 = ['\n']) then some d else none
      | [] => none
    else none
  | [] => none

/-- Seconds candidate in which the unescaped `.` of `[0-5]?[0-9].?\d*`
consumes one character (anything but a newline), followed by the greedy
`\d*` and the tail.  Shorter `\d*` candidates would place the literal `"`
of the tail on a digit, so only the maximal run can succeed. -/
def secWild (ip : List Char) : List Char → Option (List Char × Char)
  | c :: r =>
    if c = '\n' then none
    else
      match matchTail (r.dropWhile Char.isDigit) with
      | some dir => some (ip ++ c :: r.takeWhile Char.isDigit, dir)
      | none => none
  | [] => none

/-- Seconds candidate in which the `.?` matches the empty string. -/
def secNoWild (ip rest : List Char) : Option (List Char × Char) :=
  match matchTail (rest.dropWhile Char.isDigit) with
  | some dir => some (ip ++ rest.takeWhile Char.isDigit, dir)
  | none => none

/-- For a fixed integer-part candidate of the seconds group, try the greedy
`.?` alternative first, then the empty one. -/
def secTry (ip rest : List Char) : Option (List Char × Char) :=
  match secWild ip rest with
  | some v => some v
  | none => secNoWild ip rest

/-- `([0-5]?[0-9].?\d*)` followed by the tail: the greedy two-character
integer part `[0-5][0-9]` is tried before the one-character `[0-9]`. -/
def matchSeconds : List Char → Option (List Char × Char)
  | c1 :: c2 :: rest =>
    if isLow5 c1 && c2.isDigit then
      match secTry [c1, c2] rest with
      | some v => some v
      | none => if c1.isDigit then secTry [c1] (c2 :: rest) else none
    else if c1.isDigit then secTry [c1] (c2 :: rest) else none
  | [c1] => if c1.isDigit then secTry [c1] [] else none
  | [] => none

/-- The full anchored pattern
`^(\d{1,3})°\s?([0-5]?[0-9])['´]\s?([0-5]?[0-9].?\d*)"\s?([NSEWO])$`
applied by `re.search` on a character list; the `^` anchor (no MULTILINE
flag) pins the match to the start.  Returns the four captured groups. -/
def matchDmsL (cs : List Char) : Option (String × String × String × String) :=
  match matchDegrees cs with
  | none => none
  | some (dg, r1) =>
    match matchMinutes (optSpace r1) with
    | none => none
    | some (mn, r2) =>
      match matchSeconds (optSpace r2) with
      | none => none
      | some (sc, dir) => some (String.mk dg, String.mk mn, String.mk sc, String.mk [dir])

/-- The pattern applied to a string, as in `re.search(pattern, coordinate)`. -/
def matchDms (s : String) : Option (String × String × String × String) :=
  matchDmsL s.data

/-- Fuelled digit-run continuation for Python numeric literals: digits
possibly separated by single underscores, each underscore standing between
digits.  Called after at least one digit has been read; structural
recursion on the fuel keeps it reducible. -/
def udContAux : ℕ → List Char → List Char × List Char
  | 0, l => ([], l)
  | f + 1, l =>
    match l with
    | [] => ([], [])
    | c :: rest =>
      if c.isDigit then (c :: (udContAux f rest).1, (udContAux f rest).2)
      else if c = '_' then
        match rest with
        | d :: rest2 =>
          if d.isDigit then (d :: (udContAux f rest2).1, (udContAux f rest2).2)
          else ([], c :: rest)
        | [] => ([], [c])
      else ([], c :: rest)

/-- Digit-run continuation with sufficient fuel. -/
def udCont (l : List Char) : List Char × List Char := udContAux (l.length + 1) l

/-- A digit group of a Python numeric literal: a leading digit followed by
`udCont`.  Returns the digits (underscores removed) and the rest. -/
def parseUD : List Char → List Char × List Char
  | c :: rest =>
    if c.isDigit then (c :: (udCont rest).1, (udCont rest).2)
    else ([], c :: rest)
  | [] => ([], [])

/-- Value of a digit list, most significant first. -/
def digitsVal (l : List Char) : ℕ := l.foldl (fun a c => 10 * a + digitVal c) 0

/-- Strip leading Python whitespace. -/
def trimLeft (l : List Char) : List Char := l.dropWhile isPySpace

/-- Strip trailing Python whitespace. -/
def trimRight (l : List Char) : List Char := (l.reverse.dropWhile isPySpace).reverse

/-- Whitespace stripping performed by Python `float` on its argument. -/
def pyStrip (l : List Char) : List Char := trimRight (trimLeft l)

/-- Optional leading sign of a Python numeric literal. -/
def pySign (cs : List Char) : ℚ × List Char :=
  match cs with
  | c :: r => if c = '+' then (1, r) else if c = '-' then (-1, r) else (1, cs)
  | [] => (1, [])

/-- Exponent part of a Python float literal, after the `e`/`E`. -/
def pyFloatExp (sgn mant : ℚ) (r3 : List Char) : Option ℚ :=
  let esgn : ℤ × List Char :=
    match r3 with
    | c :: r => if c = '+' then (1, r) else if c = '-' then (-1, r) else (1, r3)
    | [] => (1, [])
  let p := parseUD esgn.2
  if p.1.isEmpty then none
  else if p.2.isEmpty then some (sgn * mant * (10 : ℚ) ^ (esgn.1 * (digitsVal p.1 : ℤ)))
  else none

/-- Optional fraction of a Python float literal: a `.` followed by an
optional digit group. -/
def pyFrac (r1 : List Char) : List Char × List Char :=
  match r1 with
  | c :: r => if c = '.' then parseUD r else ([], r1)
  | [] => ([], [])

/-- Rest of a Python float literal after mantissa digits: empty, or an
exponent introduced by `e`/`E`. -/
def pyFloatTail (sgn mant : ℚ) : List Char → Option ℚ
  | [] => some (sgn * mant)
  | c :: r3 => if c = 'e' ∨ c = 'E' then pyFloatExp sgn mant r3 else none

/-- Model of Python `float(s)` on decimal literals: optional surrounding
whitespace, an optional sign, digits with underscores, an optional `.` and
fraction, and an optional exponent.  The `inf`/`nan` spellings cannot occur
for the strings this program converts (every regex group starts with an
ASCII digit), and have no `ℚ` value, so they map to `none`. -/
def pyFloat (s : String) : Option ℚ :=
  let sg := pySign (pyStrip s.data)
  let ip := parseUD sg.2
  let fp := pyFrac ip.2
  if ip.1.isEmpty && fp.1.isEmpty then none
  else
    pyFloatTail sg.1 ((digitsVal ip.1 : ℚ) + (digitsVal fp.1 : ℚ) / 10 ^ fp.1.length) fp.2

/-- The `ValueError` raised on a pattern mismatch. -/
def invalidFmt : PyErr := .valueError "Invalid coordinate format!"

/-- The `ValueError` raised by Python `float` on a bad literal. -/
def floatErr (g : String) : PyErr :=
  .valueError ("could not convert string to float: '" ++ g ++ "'")

/-- Lines 60-70 of `dms_to_dd`: convert the captured groups with `float`
(left to right) and combine,
`round(float(degrees) + float(minutes)/60 + float(seconds)/3600, 5)`,
negated unless the direction is `"N"` or `"E"`. -/
def ddFromGroups : String × String × String × String → Except PyErr ℚ
  | (d, m, s, dir) =>
    match pyFloat d with
    | none => .error (floatErr d)
    | some dv =>
      match pyFloat m with
      | none => .error (floatErr m)
      | some mv =>
        match pyFloat s with
        | none => .error (floatErr s)
        | some sv =>
          let dd := round5 (dv + mv / 60 + sv / 3600)
          .ok (if dir = "N" ∨ dir = "E" then dd else -dd)

/-- `CoordinateFormatter.dms_to_dd` from `src/coordinates.py`. -/
def dms_to_dd (s : String) : Except PyErr ℚ :=
  match matchDms s with
  | none => .error invalidFmt
  | some g => ddFromGroups g

end CoordinateFormatter

/-- `CoordinateTransformer`: holds the transformation context built at
construction from the two CRS identifiers; the external engine's per-point
transformation is abstract (spec section 1 places its mathematics out of
scope), so the context is modelled as an abstract function on points. -/
structure CoordinateTransformer (α β : Type) : Type where
  transformer : α → β

/-- Contract of the external engine's `itransform` (spec section 6): a lazy
batch transform applying the bound context to each point independently, in
order. -/
def CoordinateTransformer.itransform {α β : Type} (t : CoordinateTransformer α β)
    (coordinates : List α) : List β :=
  coordinates.map t.transformer

/-- `CoordinateTransformer.transform_coordinates`:
`np.array(list(self.transformer.itransform(coordinates)))`, i.e. the
materialised batch transform. -/
def CoordinateTransformer.transform_coordinates {α β : Type}
    (t : CoordinateTransformer α β) (coordinates : List α) : List β :=
  t.itransform coordinates

open CoordinateFormatter

/-- When the pattern matches, `dms_to_dd` computes its result from the
captured groups. -/
theorem dms_to_dd_groups (s : String) (g : String × String × String × String)
    (h : matchDms s = some g) : dms_to_dd s = ddFromGroups g := by
  unfold dms_to_dd
  rw [h]

/-- C10: the string `33°41'12x34"S` — whose seconds field contains the
character `x` where a decimal point would sit — passes the pattern check
(the pattern's unescaped `.` matches any character), after which the
numeric conversion of the seconds group fails, so `dms_to_dd` raises an
error on that path that is not the invalid-format error. -/
theorem c10_pattern_pass_float_fail :
    matchDms "33°41'12x34\"S" = some ("33", "41", "12x34", "S") ∧
    pyFloat "12x34" = none ∧
    dms_to_dd "33°41'12x34\"S" =
      .error (PyErr.valueError "could not convert string to float: '12x34'") ∧
    PyErr.valueError "could not convert string to float: '12x34'" ≠ invalidFmt :=
  ⟨by decide, by decide, by decide, by decide⟩

/-- C5: the code violates the claim — the DMS string `0°0'123"N`, whose
seconds value 123 is not below 60, is not rejected: the unescaped `.` of
the pattern's seconds field lets the digit `3` stand in the decimal-point
position, the pattern matches with seconds group `123`, and `dms_to_dd`
returns `round(123/3600, 5) = 0.03417`. -/
theorem c5_seconds_sixty_accepted :
    matchDms "0°0'123\"N" = some ("0", "0", "123", "N") ∧
    pyFloat "123" = some (123 : ℚ) ∧ ¬((123 : ℚ) < 60) ∧
    dms_to_dd "0°0'123\"N" = .ok (0.03417 : ℚ) :=
  ⟨by decide, by decide, by decide, by decide⟩

/-- C1, counterexample: at `v = 0.0166666653` (within `[-90, 90]`) the
seconds value `59.99999508` is formatted as `60.00000`, the resulting
string `0°0'60.00000"N` does not match the parsing pattern, and
`dms_to_dd (latdd_to_latdms v)` fails instead of returning a value within
`1e-5` of `v`. -/
theorem c1_roundtrip_counterexample :
    (-90 ≤ (0.0166666653 : ℚ) ∧ (0.0166666653 : ℚ) ≤ 90) ∧
    latdd_to_latdms (0.0166666653 : ℚ) = .ok "0°0'60.00000\"N" ∧
    dms_to_dd "0°0'60.00000\"N" = .error invalidFmt :=
  ⟨by decide, by decide, by decide⟩

/-- C3, counterexample: the string `33°41'12.2"S` followed by a newline has
an extra character after the hemisphere letter, yet `dms_to_dd` accepts it
(Python's `$` anchor also matches just before a single trailing newline)
instead of failing with the invalid-format error. -/
theorem c3_trailing_newline_counterexample :
    "33°41'12.2\"S\n" = "33°41'12.2\"S" ++ "\n" ∧
    dms_to_dd "33°41'12.2\"S\n" = .ok (-33.68672 : ℚ) :=
  ⟨rfl, by decide⟩

/-- C3, amended: every string the pattern does not match is rejected with
the invalid-format error and no partial value, where the pattern's end
anchor also accepts one single trailing newline after the hemisphere
letter. -/
theorem c3_invalid_format_error (s : String) (h : matchDms s = none) :
    dms_to_dd s = .error invalidFmt := by
  unfold dms_to_dd
  rw [h]

/-- Witness for `c3_invalid_format_error` at a concrete non-matching
string. -/
theorem c3_invalid_format_error_witness :
    matchDms "not a coordinate" = none ∧
    dms_to_dd "not a coordinate" = .error invalidFmt :=
  ⟨by decide, c3_invalid_format_error "not a coordinate" (by decide)⟩

/-- C4, counterexample: at `c = 0.9999999987` the seconds value
`59.99999532` rounds, under five-decimal formatting, to a printed seconds
field of `60.00000`, whose value is not below 60. -/
theorem c4_seconds_sixty_counterexample :
    dd_to_dms (0.9999999987 : ℚ) = "0°59'60.00000\"" ∧
    fmt5Val (ddSeconds (0.9999999987 : ℚ)) = 60 :=
  ⟨by decide, by decide⟩

/-- C6: out-of-domain coordinates make `latdd_to_latdms` and
`londd_to_londms` fail with the assertion (precondition) error; no string
is returned, so no clamping or wrapping occurs. -/
theorem c6_domain_assertions (la lo : ℚ)
    (hla : ¬(-90 ≤ la ∧ la ≤ 90)) (hlo : ¬(-180 ≤ lo ∧ lo ≤ 180)) :
    latdd_to_latdms la =
      .error (.assertionError "Latitude should be between -90 and 90 degrees") ∧
    londd_to_londms lo =
      .error (.assertionError "Longitude should be between -180 and 180 degrees") := by
  unfold latdd_to_latdms londd_to_londms
  rw [if_neg hla, if_neg hlo]
  exact ⟨rfl, rfl⟩

/-- Witness for `c6_domain_assertions`: `latdd_to_latdms 95` (the spec's
example) and `londd_to_londms 200` fail with the assertion errors. -/
theorem c6_domain_assertions_witness :
    latdd_to_latdms 95 =
      .error (.assertionError "Latitude should be between -90 and 90 degrees") ∧
    londd_to_londms 200 =
      .error (.assertionError "Longitude should be between -180 and 180 degrees") :=
  c6_domain_assertions 95 200 (by norm_num) (by norm_num)

/-- C9: `transform_coordinates` returns a sequence of the same length as
its input whose `i`-th entry is the bound context's transformation (the
external engine, treated as an abstract function) of the `i`-th input
entry — order-preserving, no reordering or deduplication. -/
theorem c9_transform_pointwise {α β : Type} (t : CoordinateTransformer α β)
    (coordinates : List α) :
    (t.transform_coordinates coordinates).length = coordinates.length ∧
    ∀ i : ℕ, (t.transform_coordinates coordinates)[i]? =
      (coordinates[i]?).map t.transformer := by
  refine ⟨?_, fun i => ?_⟩
  · simp [CoordinateTransformer.transform_coordinates, CoordinateTransformer.itransform]
  · simp [CoordinateTransformer.transform_coordinates, CoordinateTransformer.itransform,
      List.getElem?_map]


/-- C2: for every string accepted by `dms_to_dd`, with captured groups
converting to numbers `dv`, `mv`, `sv` and hemisphere letter `dir`, the
result is `round(dv + mv/60 + sv/3600, 5)` when the letter is `N` or `E`
and its negation otherwise; in particular
`dms_to_dd "33°41'12.2\"S" = -33.68672`. -/
theorem c2_dd_formula :
    (∀ (s d m sec dir : String) (dv mv sv : ℚ),
      matchDms s = some (d, m, sec, dir) →
      pyFloat d = some dv → pyFloat m = some mv → pyFloat sec = some sv →
      dms_to_dd s = .ok (if dir = "N" ∨ dir = "E"
        then round5 (dv + mv / 60 + sv / 3600)
        else -round5 (dv + mv / 60 + sv / 3600))) ∧
    dms_to_dd "33°41'12.2\"S" = .ok (-33.68672 : ℚ) := by
  refine ⟨?_, by decide⟩
  intro s d m sec dir dv mv sv hm hd hmn hs
  rw [dms_to_dd_groups s (d, m, sec, dir) hm]
  simp only [ddFromGroups, hd, hmn, hs]

/-- Witness for the universal part of `c2_dd_formula`, at the concrete
accepted string `10°30'36"E`. -/
theorem c2_dd_formula_witness :
    matchDms "10°30'36\"E" = some ("10", "30", "36", "E") ∧
    dms_to_dd "10°30'36\"E" = .ok (10.51 : ℚ) := by
  refine ⟨by decide, ?_⟩
  have h := c2_dd_formula.1 "10°30'36\"E" "10" "30" "36" "E" 10 30 36
    (by decide) (by decide) (by decide) (by decide)
  rw [h]
  decide

/-- C7: an accepted DMS string whose hemisphere letter is `O` yields the
same result as one with the same degree, minute and second groups and
letter `W`; in particular `dms_to_dd "68°01'38.44\"O"` equals
`dms_to_dd "68°01'38.44\"W"`. -/
theorem c7_O_equals_W :
    (∀ (s s' d m sec : String),
      matchDms s = some (d, m, sec, "O") → matchDms s' = some (d, m, sec, "W") →
      dms_to_dd s = dms_to_dd s') ∧
    dms_to_dd "68°01'38.44\"O" = dms_to_dd "68°01'38.44\"W" := by
  refine ⟨?_, by decide⟩
  intro s s' d m sec h1 h2
  rw [dms_to_dd_groups s (d, m, sec, "O") h1, dms_to_dd_groups s' (d, m, sec, "W") h2]
  simp only [ddFromGroups]
  cases pyFloat d <;> cases pyFloat m <;> cases pyFloat sec <;> simp

/-- Witness for the universal part of `c7_O_equals_W`, at the concrete
pair `5°6'7"O` / `5°6'7"W`. -/
theorem c7_O_equals_W_witness :
    matchDms "5°6'7\"O" = some ("5", "6", "7", "O") ∧
    matchDms "5°6'7\"W" = some ("5", "6", "7", "W") ∧
    dms_to_dd "5°6'7\"O" = dms_to_dd "5°6'7\"W" :=
  ⟨by decide, by decide,
    c7_O_equals_W.1 "5°6'7\"O" "5°6'7\"W" "5" "6" "7" (by decide) (by decide)⟩

/-- C8: on its domain, `latdd_to_latdms` appends `N` exactly for strictly
positive coordinates and `S` otherwise, `londd_to_londms` appends `E`
exactly for strictly positive coordinates and `W` otherwise; in
particular the result at zero ends in `S` (resp. `W`). -/
theorem c8_hemisphere_letters (la lo : ℚ)
    (hla : -90 ≤ la ∧ la ≤ 90) (hlo : -180 ≤ lo ∧ lo ≤ 180) :
    latdd_to_latdms la = .ok (dd_to_dms la ++ (if 0 < la then "N" else "S")) ∧
    londd_to_londms lo = .ok (dd_to_dms lo ++ (if 0 < lo then "E" else "W")) ∧
    (∃ s : String, latdd_to_latdms 0 = .ok s ∧ s.data.getLast? = some 'S') ∧
    (∃ t : String, londd_to_londms 0 = .ok t ∧ t.data.getLast? = some 'W') := by
  refine ⟨?_, ?_, ⟨"0°0'0.00000\"S", by decide, by decide⟩,
    ⟨"0°0'0.00000\"W", by decide, by decide⟩⟩
  · unfold latdd_to_latdms
    rw [if_pos hla]
    by_cases h : 0 < la <;> simp [h, dd_to_dms] <;> rfl
  · unfold londd_to_londms
    rw [if_pos hlo]
    by_cases h : 0 < lo <;> simp [h, dd_to_dms] <;> rfl

/-- Witness for `c8_hemisphere_letters` at `0.5345` (latitude, positive)
and `-3.25` (longitude, nonpositive). -/
theorem c8_hemisphere_letters_witness :
    latdd_to_latdms (0.5345 : ℚ) = .ok (dd_to_dms (0.5345 : ℚ) ++ "N") ∧
    londd_to_londms (-3.25 : ℚ) = .ok (dd_to_dms (-3.25 : ℚ) ++ "W") := by
  have h := c8_hemisphere_letters (0.5345 : ℚ) (-3.25 : ℚ)
    ⟨by norm_num, by norm_num⟩ ⟨by norm_num, by norm_num⟩
  rw [if_pos (show (0:ℚ) < 0.5345 by norm_num)] at h
  rw [if_neg (show ¬((0:ℚ) < -3.25) by norm_num)] at h
  exact ⟨h.1, h.2.1⟩

/-- `rhe` lies between the floor and the floor plus one. -/
theorem rhe_bounds (x : ℚ) : ⌊x⌋ ≤ rhe x ∧ rhe x ≤ ⌊x⌋ + 1 := by
  unfold rhe
  split_ifs <;> omega

/-- `rhe` of a value below an integer stays at most that integer. -/
theorem rhe_le_of_lt (x : ℚ) (n : ℤ) (h : x < n) : rhe x ≤ n := by
  have h1 := (rhe_bounds x).2
  have h2 : ⌊x⌋ < n := Int.floor_lt.mpr (by exact_mod_cast h)
  omega

/-- `rhe` of a nonnegative value is nonnegative. -/
theorem rhe_nonneg (x : ℚ) (h : 0 ≤ x) : 0 ≤ rhe x :=
  le_trans (Int.floor_nonneg.mpr h) (rhe_bounds x).1

/-- The minutes value of `dd_to_dms` is nonnegative. -/
theorem ddMinutes_nonneg (c : ℚ) : 0 ≤ ddMinutes c :=
  mul_nonneg (Int.fract_nonneg _) (by norm_num)

/-- The minutes value of `dd_to_dms` is below 60. -/
theorem ddMinutes_lt (c : ℚ) : ddMinutes c < 60 := by
  have h := Int.fract_lt_one |c|
  unfold ddMinutes
  nlinarith

/-- The seconds value of `dd_to_dms` is nonnegative. -/
theorem ddSeconds_nonneg (c : ℚ) : 0 ≤ ddSeconds c :=
  mul_nonneg (Int.fract_nonneg _) (by norm_num)

/-- The seconds value of `dd_to_dms` is below 60. -/
theorem ddSeconds_lt (c : ℚ) : ddSeconds c < 60 := by
  have h := Int.fract_lt_one (ddMinutes c)
  unfold ddSeconds
  nlinarith

/-- C4, amended: for every DD number `c`, `dd_to_dms c` is the fragment
`degrees°minutes'seconds"` with `degrees = ⌊|c|⌋`, an integer minutes
field in `[0, 59]`, and a five-decimal seconds field whose displayed
value `S` satisfies `0 ≤ S ≤ 60` — the pre-formatting seconds value is
below 60, but five-decimal rounding can print exactly `60.00000`. -/
theorem c4_shape_and_bounds (c : ℚ) :
    dd_to_dms c = String.mk (natDigits (⌊|c|⌋).toNat ++ '°' ::
      (natDigits (⌊ddMinutes c⌋).toNat ++ '\'' :: (fmt5 (ddSeconds c) ++ ['"']))) ∧
    (⌊ddMinutes c⌋).toNat ≤ 59 ∧
    ddSeconds c < 60 ∧
    0 ≤ fmt5Val (ddSeconds c) ∧ fmt5Val (ddSeconds c) ≤ 60 := by
  refine ⟨rfl, ?_, ddSeconds_lt c, ?_, ?_⟩
  · have h : ⌊ddMinutes c⌋ < 60 := Int.floor_lt.mpr (by exact_mod_cast ddMinutes_lt c)
    omega
  · unfold fmt5Val
    positivity
  · unfold fmt5Val
    rw [div_le_iff₀ (by norm_num : (0:ℚ) < 100000)]
    have h1 : rhe (ddSeconds c * 100000) ≤ 6000000 :=
      rhe_le_of_lt _ _ (by push_cast; nlinarith [ddSeconds_lt c])
    have h2 : (rhe (ddSeconds c * 100000)).toNat ≤ 6000000 := by omega
    calc ((rhe (ddSeconds c * 100000)).toNat : ℚ) ≤ 6000000 := by exact_mod_cast h2
      _ = 60 * 100000 := by norm_num

/-- Character facts about decimal digit characters. -/
theorem digitChar_facts (n : ℕ) (h : n < 10) :
    (digitChar n).isDigit = true ∧ isPySpace (digitChar n) = false ∧
    isQuoteMark (digitChar n) = false ∧ digitChar n ≠ '+' ∧
    digitChar n ≠ '-' ∧ digitChar n ≠ '\n' ∧ digitChar n ≠ '.' ∧
    digitChar n ≠ '_' := by
  interval_cases n <;> decide

/-- `digitVal` inverts `digitChar` on digits. -/
theorem digitVal_digitChar (n : ℕ) (h : n < 10) : digitVal (digitChar n) = n := by
  interval_cases n <;> decide

/-- Digits up to five have a `[0-5]` character. -/
theorem isLow5_digitChar (n : ℕ) (h : n ≤ 5) : isLow5 (digitChar n) = true := by
  interval_cases n <;> decide

/-- The fuel argument of `natDigitsAux` is irrelevant once sufficient. -/
theorem natDigitsAux_fuel (f1 : ℕ) : ∀ (f2 n : ℕ), n < f1 → n < f2 →
    natDigitsAux f1 n = natDigitsAux f2 n := by
  induction f1 with
  | zero => intro f2 n h1 _; omega
  | succ f ih =>
    intro f2 n h1 h2
    cases f2 with
    | zero => omega
    | succ g =>
      by_cases hn : n < 10
      · simp [natDigitsAux, hn]
      · have hd : n / 10 < n := Nat.div_lt_self (by omega) (by omega)
        simp only [natDigitsAux, if_neg hn]
        rw [ih g (n / 10) (by omega) (by omega)]

/-- One-digit rendering. -/
theorem natDigits_lt10 (n : ℕ) (h : n < 10) : natDigits n = [digitChar n] := by
  simp [natDigits, natDigitsAux, h]

/-- Unfolding step of `natDigits` for numbers of ten or more. -/
theorem natDigits_ge10 (n : ℕ) (h : 10 ≤ n) :
    natDigits n = natDigits (n / 10) ++ [digitChar (n % 10)] := by
  have hd : n / 10 < n := Nat.div_lt_self (by omega) (by omega)
  show natDigitsAux (n + 1) n = _
  simp only [natDigitsAux, if_neg (by omega : ¬ n < 10)]
  rw [natDigitsAux_fuel n (n / 10 + 1) (n / 10) (by omega) (by omega)]
  rfl

/-- Two-digit rendering. -/
theorem natDigits_two (n : ℕ) (h1 : 10 ≤ n) (h2 : n < 100) :
    natDigits n = [digitChar (n / 10), digitChar (n % 10)] := by
  rw [natDigits_ge10 n h1, natDigits_lt10 (n / 10) (by omega)]
  rfl

/-- Three-digit rendering. -/
theorem natDigits_three (n : ℕ) (h1 : 100 ≤ n) (h2 : n < 1000) :
    natDigits n = [digitChar (n / 100), digitChar (n / 10 % 10), digitChar (n % 10)] := by
  rw [natDigits_ge10 n (by omega), natDigits_two (n / 10) (by omega) (by omega)]
  rw [Nat.div_div_eq_div_mul]
  rfl

/-- Every rendered character is a digit character. -/
theorem natDigits_mem (n : ℕ) : ∀ c ∈ natDigits n, ∃ k, k < 10 ∧ c = digitChar k := by
  induction n using Nat.strong_induction_on with
  | _ n ih =>
    by_cases h : n < 10
    · rw [natDigits_lt10 n h]
      intro c hc
      rw [List.mem_singleton] at hc
      exact ⟨n, h, hc⟩
    · rw [natDigits_ge10 n (by omega)]
      intro c hc
      rw [List.mem_append, List.mem_singleton] at hc
      rcases hc with hc | hc
      · exact ih (n / 10) (Nat.div_lt_self (by omega) (by omega)) c hc
      · exact ⟨n % 10, Nat.mod_lt n (by omega), hc⟩

/-- Rendered digit lists are nonempty. -/
theorem natDigits_ne_nil (n : ℕ) : natDigits n ≠ [] := by
  by_cases h : n < 10
  · rw [natDigits_lt10 n h]; simp
  · rw [natDigits_ge10 n (by omega)]; simp

/-- All rendered characters satisfy `Char.isDigit`. -/
theorem natDigits_all_digit (n : ℕ) : ∀ c ∈ natDigits n, c.isDigit = true := by
  intro c hc
  obtain ⟨k, hk, rfl⟩ := natDigits_mem n c hc
  exact (digitChar_facts k hk).1

/-- Length bound for rendered digit lists. -/
theorem natDigits_length_le (k : ℕ) : ∀ n : ℕ, 1 ≤ k → n < 10 ^ k →
    (natDigits n).length ≤ k := by
  induction k with
  | zero => intro n h; omega
  | succ k ih =>
    intro n _ hn
    by_cases h : n < 10
    · rw [natDigits_lt10 n h]; simp
    · have hk : 1 ≤ k := by
        by_contra hc
        have : k = 0 := by omega
        subst this
        simp at hn
        omega
      rw [natDigits_ge10 n (by omega)]
      have hdiv : n / 10 < 10 ^ k := by
        rw [Nat.div_lt_iff_lt_mul (by omega)]
        calc n < 10 ^ (k + 1) := hn
          _ = 10 ^ k * 10 := by ring
      have := ih (n / 10) hk hdiv
      simp only [List.length_append, List.length_singleton]
      omega

/-- `takeWhile` passes over a prefix all of whose elements satisfy the
predicate. -/
theorem takeWhile_append_all {p : Char → Bool} (l r : List Char)
    (h : ∀ c ∈ l, p c = true) : (l ++ r).takeWhile p = l ++ r.takeWhile p := by
  induction l with
  | nil => rfl
  | cons c t ih =>
    simp [List.takeWhile_cons, h c (List.mem_cons_self c t),
      ih (fun d hd => h d (List.mem_cons_of_mem c hd))]

/-- `dropWhile` passes over a prefix all of whose elements satisfy the
predicate. -/
theorem dropWhile_append_all {p : Char → Bool} (l r : List Char)
    (h : ∀ c ∈ l, p c = true) : (l ++ r).dropWhile p = r.dropWhile p := by
  induction l with
  | nil => rfl
  | cons c t ih =>
    simp only [List.cons_append, List.dropWhile_cons, h c (List.mem_cons_self c t), if_pos]
    exact ih (fun d hd => h d (List.mem_cons_of_mem c hd))

/-- Value of a digit list extended by one digit. -/
theorem digitsVal_append_singleton (l : List Char) (c : Char) :
    digitsVal (l ++ [c]) = 10 * digitsVal l + digitVal c := by
  simp [digitsVal, List.foldl_append]

/-- `digitsVal` inverts `natDigits`. -/
theorem digitsVal_natDigits (n : ℕ) : digitsVal (natDigits n) = n := by
  induction n using Nat.strong_induction_on with
  | _ n ih =>
    by_cases h : n < 10
    · rw [natDigits_lt10 n h]
      show 10 * 0 + digitVal (digitChar n) = n
      rw [digitVal_digitChar n h]
      omega
    · rw [natDigits_ge10 n (by omega), digitsVal_append_singleton,
        ih (n / 10) (Nat.div_lt_self (by omega) (by omega)),
        digitVal_digitChar (n % 10) (Nat.mod_lt n (by omega))]
      omega

/-- Leading zero characters do not change a digit list's value. -/
theorem digitsVal_replicate_zero (k : ℕ) (l : List Char) :
    digitsVal (List.replicate k '0' ++ l) = digitsVal l := by
  induction k with
  | zero => rfl
  | succ k ih =>
    show digitsVal ('0' :: (List.replicate k '0' ++ l)) = digitsVal l
    rw [show digitsVal ('0' :: (List.replicate k '0' ++ l)) =
      digitsVal (List.replicate k '0' ++ l) from rfl, ih]

/-- All characters of `pad5` are digits. -/
theorem pad5_all_digit (k : ℕ) : ∀ c ∈ pad5 k, c.isDigit = true := by
  intro c hc
  unfold pad5 at hc
  rw [List.mem_append] at hc
  rcases hc with hc | hc
  · rw [List.eq_of_mem_replicate hc]; rfl
  · exact natDigits_all_digit k c hc

/-- `pad5` has exactly five characters below `100000`. -/
theorem pad5_length (k : ℕ) (h : k < 100000) : (pad5 k).length = 5 := by
  have hl := natDigits_length_le 5 k (by omega) (by norm_num at *; omega)
  unfold pad5
  rw [List.length_append, List.length_replicate]
  omega

/-- `pad5` preserves the numeric value. -/
theorem digitsVal_pad5 (k : ℕ) : digitsVal (pad5 k) = k := by
  unfold pad5
  rw [digitsVal_replicate_zero, digitsVal_natDigits]

/-- `optSpace` does nothing before a rendered number. -/
theorem optSpace_digits (n : ℕ) (r : List Char) :
    optSpace (natDigits n ++ r) = natDigits n ++ r := by
  cases hnd : natDigits n with
  | nil => exact absurd hnd (natDigits_ne_nil n)
  | cons c t =>
    have hc : c ∈ natDigits n := by rw [hnd]; exact List.mem_cons_self c t
    obtain ⟨k, hk, rfl⟩ := natDigits_mem n c hc
    simp [optSpace, (digitChar_facts k hk).2.1]

/-- Unfolding `udCont` on a digit head. -/
theorem udCont_cons_digit (c : Char) (rest : List Char) (h : c.isDigit = true) :
    udCont (c :: rest) = (c :: (udCont rest).1, (udCont rest).2) := by
  show udContAux ((c :: rest).length + 1) (c :: rest) = _
  simp only [List.length_cons, udContAux, h, if_pos]
  rfl

/-- Unfolding `udCont` on a head that is neither a digit nor an
underscore. -/
theorem udCont_cons_stop (c : Char) (rest : List Char) (h1 : c.isDigit = false)
    (h2 : c ≠ '_') : udCont (c :: rest) = ([], c :: rest) := by
  show udContAux ((c :: rest).length + 1) (c :: rest) = _
  simp only [List.length_cons, udContAux, h1, h2, if_neg, Bool.false_eq_true, if_false]

/-- `udCont` consumes a digit run entirely. -/
theorem udCont_all_digits (l : List Char) (h : ∀ c ∈ l, c.isDigit = true) :
    udCont l = (l, []) := by
  induction l with
  | nil => rfl
  | cons c t ih =>
    rw [udCont_cons_digit c t (h c (List.mem_cons_self c t)),
      ih (fun d hd => h d (List.mem_cons_of_mem c hd))]

/-- `udCont` consumes a digit run and stops at a decimal point. -/
theorem udCont_digits_dot (l r : List Char) (h : ∀ c ∈ l, c.isDigit = true) :
    udCont (l ++ '.' :: r) = (l, '.' :: r) := by
  induction l with
  | nil => exact udCont_cons_stop '.' r rfl (by decide)
  | cons c t ih =>
    rw [List.cons_append, udCont_cons_digit c _ (h c (List.mem_cons_self c t)),
      ih (fun d hd => h d (List.mem_cons_of_mem c hd))]

/-- `parseUD` consumes a nonempty digit run entirely. -/
theorem parseUD_all_digits (l : List Char) (hne : l ≠ [])
    (h : ∀ c ∈ l, c.isDigit = true) : parseUD l = (l, []) := by
  cases l with
  | nil => exact absurd rfl hne
  | cons c t =>
    simp only [parseUD, h c (List.mem_cons_self c t), if_pos]
    rw [udCont_all_digits t (fun d hd => h d (List.mem_cons_of_mem c hd))]

/-- `parseUD` consumes a nonempty digit run and stops at a decimal point. -/
theorem parseUD_digits_dot (l r : List Char) (hne : l ≠ [])
    (h : ∀ c ∈ l, c.isDigit = true) : parseUD (l ++ '.' :: r) = (l, '.' :: r) := by
  cases l with
  | nil => exact absurd rfl hne
  | cons c t =>
    simp only [List.cons_append, parseUD, h c (List.mem_cons_self c t), if_pos]
    rw [udCont_digits_dot t r (fun d hd => h d (List.mem_cons_of_mem c hd))]

/-- `dropWhile` is the identity on space-free lists. -/
theorem dropWhile_no_space (l : List Char) (h : ∀ c ∈ l, isPySpace c = false) :
    l.dropWhile isPySpace = l := by
  cases l with
  | nil => rfl
  | cons c t => simp [List.dropWhile_cons, h c (List.mem_cons_self c t)]

/-- `pyStrip` is the identity on space-free lists. -/
theorem pyStrip_no_space (l : List Char) (h : ∀ c ∈ l, isPySpace c = false) :
    pyStrip l = l := by
  unfold pyStrip trimLeft trimRight
  rw [dropWhile_no_space l h,
    dropWhile_no_space l.reverse (fun c hc => h c (List.mem_reverse.mp hc)),
    List.reverse_reverse]

/-- Rendered digit lists contain no whitespace. -/
theorem natDigits_no_space (n : ℕ) : ∀ c ∈ natDigits n, isPySpace c = false := by
  intro c hc
  obtain ⟨k, hk, rfl⟩ := natDigits_mem n c hc
  exact (digitChar_facts k hk).2.1

/-- Every character of `pad5` is a digit character. -/
theorem pad5_mem (k : ℕ) : ∀ c ∈ pad5 k, ∃ j, j < 10 ∧ c = digitChar j := by
  intro c hc
  unfold pad5 at hc
  rw [List.mem_append] at hc
  rcases hc with hc | hc
  · exact ⟨0, by omega, List.eq_of_mem_replicate hc⟩
  · exact natDigits_mem k c hc

/-- `pad5` is nonempty. -/
theorem pad5_ne_nil (k : ℕ) : pad5 k ≠ [] := by
  unfold pad5
  intro h
  rw [List.append_eq_nil] at h
  exact natDigits_ne_nil k h.2

/-- The sign parser does nothing before a rendered number. -/
theorem pySign_digits (n : ℕ) (r : List Char) :
    pySign (natDigits n ++ r) = (1, natDigits n ++ r) := by
  cases hnd : natDigits n with
  | nil => exact absurd hnd (natDigits_ne_nil n)
  | cons c t =>
    have hc : c ∈ natDigits n := by rw [hnd]; exact List.mem_cons_self c t
    obtain ⟨k, hk, rfl⟩ := natDigits_mem n c hc
    simp [pySign, (digitChar_facts k hk).2.2.2.1, (digitChar_facts k hk).2.2.2.2.1]

/-- `pyFloat` reads back a rendered integer. -/
theorem pyFloat_natDigits (n : ℕ) :
    pyFloat (String.mk (natDigits n)) = some (n : ℚ) := by
  have hsg : pySign (natDigits n) = (1, natDigits n) := by
    have h := pySign_digits n []
    simpa using h
  have hne : (natDigits n).isEmpty = false := by
    cases hnd : natDigits n with
    | nil => exact absurd hnd (natDigits_ne_nil n)
    | cons c t => rfl
  unfold pyFloat
  dsimp only
  rw [pyStrip_no_space (natDigits n) (natDigits_no_space n), hsg]
  dsimp only
  rw [parseUD_all_digits (natDigits n) (natDigits_ne_nil n) (natDigits_all_digit n)]
  dsimp only
  simp only [pyFrac]
  rw [hne]
  simp only [Bool.false_and, Bool.false_eq_true, if_false, pyFloatTail]
  rw [digitsVal_natDigits]
  norm_num [digitsVal]

/-- `pyFloat` reads back a rendered fixed-point number with a five-digit
fraction. -/
theorem pyFloat_fixed (a b : ℕ) (hb : b < 100000) :
    pyFloat (String.mk (natDigits a ++ '.' :: pad5 b)) =
      some ((a : ℚ) + (b : ℚ) / 100000) := by
  have hnospace : ∀ c ∈ natDigits a ++ '.' :: pad5 b, isPySpace c = false := by
    intro c hc
    rw [List.mem_append, List.mem_cons] at hc
    rcases hc with hc | hc | hc
    · exact natDigits_no_space a c hc
    · subst hc; decide
    · obtain ⟨j, hj, rfl⟩ := pad5_mem b c hc
      exact (digitChar_facts j hj).2.1
  have hfrac : pyFrac ('.' :: pad5 b) = (pad5 b, []) := by
    simp only [pyFrac, if_pos rfl]
    exact parseUD_all_digits (pad5 b) (pad5_ne_nil b) (pad5_all_digit b)
  have hne : (natDigits a).isEmpty = false := by
    cases hnd : natDigits a with
    | nil => exact absurd hnd (natDigits_ne_nil a)
    | cons c t => rfl
  unfold pyFloat
  dsimp only
  rw [pyStrip_no_space _ hnospace, pySign_digits a ('.' :: pad5 b)]
  dsimp only
  rw [parseUD_digits_dot (natDigits a) (pad5 b) (natDigits_ne_nil a) (natDigits_all_digit a)]
  dsimp only
  rw [hfrac, hne]
  simp only [Bool.false_and, Bool.false_eq_true, if_false, pyFloatTail]
  rw [digitsVal_natDigits, digitsVal_pad5, pad5_length b hb]
  norm_num

/-- Rendered digit lists are not empty (boolean form). -/
theorem natDigits_isEmpty (n : ℕ) : (natDigits n).isEmpty = false := by
  cases hnd : natDigits n with
  | nil => exact absurd hnd (natDigits_ne_nil n)
  | cons c t => rfl

/-- The degrees phase accepts a rendered number of at most three digits
followed by the degree sign. -/
theorem matchDegrees_render (dg : ℕ) (r : List Char) (hdg : dg < 1000) :
    matchDegrees (natDigits dg ++ '°' :: r) = some (natDigits dg, r) := by
  have htw : (natDigits dg ++ '°' :: r).takeWhile Char.isDigit = natDigits dg := by
    rw [takeWhile_append_all _ _ (natDigits_all_digit dg)]
    simp [List.takeWhile_cons, show ('°' : Char).isDigit = false from rfl]
  have hlen : (natDigits dg).length ≤ 3 :=
    natDigits_length_le 3 dg (by omega) (lt_of_lt_of_le hdg (by norm_num))
  unfold matchDegrees
  dsimp only
  rw [htw, List.take_of_length_le hlen, natDigits_isEmpty dg]
  simp only [Bool.false_eq_true, if_false, List.drop_left]
  simp

/-- The minutes phase accepts a rendered number of at most two digits
followed by an apostrophe. -/
theorem matchMinutes_render (mn : ℕ) (r : List Char) (c : Char) (hmn : mn ≤ 59) :
    matchMinutes (natDigits mn ++ '\'' :: c :: r) = some (natDigits mn, c :: r) := by
  by_cases h : mn < 10
  · rw [natDigits_lt10 mn h]
    simp [matchMinutes, (digitChar_facts mn h).1,
      show ('\'' : Char).isDigit = false from rfl,
      show isQuoteMark '\'' = true from rfl]
  · rw [natDigits_two mn (by omega) (by omega)]
    simp [matchMinutes, isLow5_digitChar (mn / 10) (by omega),
      (digitChar_facts (mn % 10) (Nat.mod_lt mn (by omega))).1,
      show isQuoteMark '\'' = true from rfl]

/-- The tail phase accepts a double quote directly followed by a
non-`O` hemisphere letter at the very end of the string. -/
theorem matchTail_render (dir : Char)
    (hdir : dir = 'N' ∨ dir = 'S' ∨ dir = 'E' ∨ dir = 'W') :
    matchTail ('"' :: [dir]) = some dir := by
  rcases hdir with rfl | rfl | rfl | rfl <;> decide

/-- The wildcard candidate of the seconds group accepts a decimal point
followed by fraction digits, the closing quote and the hemisphere
letter. -/
theorem secWild_dot (ip sfl : List Char) (dir : Char)
    (hsf : ∀ c ∈ sfl, c.isDigit = true)
    (hdir : dir = 'N' ∨ dir = 'S' ∨ dir = 'E' ∨ dir = 'W') :
    secWild ip ('.' :: (sfl ++ '"' :: [dir])) = some (ip ++ '.' :: sfl, dir) := by
  have hdw : (sfl ++ '"' :: [dir]).dropWhile Char.isDigit = '"' :: [dir] := by
    rw [dropWhile_append_all _ _ hsf]
    simp [List.dropWhile_cons, show ('"' : Char).isDigit = false from rfl]
  have htw : (sfl ++ '"' :: [dir]).takeWhile Char.isDigit = sfl := by
    rw [takeWhile_append_all _ _ hsf]
    simp [List.takeWhile_cons, show ('"' : Char).isDigit = false from rfl]
  unfold secWild
  dsimp only
  rw [if_neg (by decide : ¬('.' : Char) = '\n'), hdw, matchTail_render dir hdir]
  dsimp only
  rw [htw]

/-- The seconds phase accepts a rendered fixed-point number followed by
the closing quote and the hemisphere letter. -/
theorem matchSeconds_render (si : ℕ) (sfl : List Char) (dir : Char)
    (hsi : si ≤ 59) (hsf : ∀ c ∈ sfl, c.isDigit = true)
    (hdir : dir = 'N' ∨ dir = 'S' ∨ dir = 'E' ∨ dir = 'W') :
    matchSeconds (natDigits si ++ '.' :: (sfl ++ '"' :: [dir])) =
      some (natDigits si ++ '.' :: sfl, dir) := by
  have htry : ∀ ip : List Char, secTry ip ('.' :: (sfl ++ '"' :: [dir])) =
      some (ip ++ '.' :: sfl, dir) := by
    intro ip
    unfold secTry
    rw [secWild_dot ip sfl dir hsf hdir]
  by_cases h : si < 10
  · rw [natDigits_lt10 si h]
    show matchSeconds (digitChar si :: '.' :: (sfl ++ '"' :: [dir])) = _
    simp [matchSeconds, show ('.' : Char).isDigit = false from rfl,
      (digitChar_facts si h).1, htry [digitChar si]]
  · rw [natDigits_two si (by omega) (by omega)]
    show matchSeconds (digitChar (si / 10) :: digitChar (si % 10) ::
      '.' :: (sfl ++ '"' :: [dir])) = _
    simp [matchSeconds, isLow5_digitChar (si / 10) (by omega),
      (digitChar_facts (si % 10) (Nat.mod_lt si (by omega))).1,
      htry [digitChar (si / 10), digitChar (si % 10)]]

/-- The full pattern accepts a rendered DMS fragment followed by a
hemisphere letter, capturing the four groups. -/
theorem matchDmsL_render (dg mn si : ℕ) (sfl : List Char) (dir : Char)
    (hdg : dg < 1000) (hmn : mn ≤ 59) (hsi : si ≤ 59)
    (hsf : ∀ c ∈ sfl, c.isDigit = true)
    (hdir : dir = 'N' ∨ dir = 'S' ∨ dir = 'E' ∨ dir = 'W') :
    matchDmsL (natDigits dg ++ '°' :: (natDigits mn ++ '\'' ::
        (natDigits si ++ '.' :: (sfl ++ '"' :: [dir])))) =
      some (String.mk (natDigits dg), String.mk (natDigits mn),
        String.mk (natDigits si ++ '.' :: sfl), String.mk [dir]) := by
  have step3 : matchMinutes (natDigits mn ++ '\'' ::
      (natDigits si ++ '.' :: (sfl ++ '"' :: [dir]))) =
      some (natDigits mn, natDigits si ++ '.' :: (sfl ++ '"' :: [dir])) := by
    cases hnd : natDigits si with
    | nil => exact absurd hnd (natDigits_ne_nil si)
    | cons s1 st =>
      rw [List.cons_append]
      exact matchMinutes_render mn (st ++ '.' :: (sfl ++ '"' :: [dir])) s1 hmn
  unfold matchDmsL
  rw [matchDegrees_render dg _ hdg]
  dsimp only
  rw [optSpace_digits mn ('\'' :: (natDigits si ++ '.' :: (sfl ++ '"' :: [dir]))), step3]
  dsimp only
  rw [optSpace_digits si ('.' :: (sfl ++ '"' :: [dir])),
    matchSeconds_render si sfl dir hsi hsf hdir]

/-- Reassociation of the formatted fragment with an appended hemisphere
letter into the shape consumed by the matcher. -/
theorem dd_chars_append_dir (c : ℚ) (dir : Char) :
    dd_to_dms_chars c ++ [dir] =
      natDigits (ddDegrees c) ++ '°' :: (natDigits (⌊ddMinutes c⌋).toNat ++ '\'' ::
        (natDigits ((rhe (ddSeconds c * 100000)).toNat / 100000) ++ '.' ::
          (pad5 ((rhe (ddSeconds c * 100000)).toNat % 100000) ++ '"' :: [dir]))) := by
  unfold dd_to_dms_chars fmt5
  simp [List.append_assoc]

/-- Splitting a natural number at the fifth decimal digit, cast to `ℚ`. -/
theorem nat_div_mod_cast (n : ℕ) :
    ((n / 100000 : ℕ) : ℚ) + ((n % 100000 : ℕ) : ℚ) / 100000 = (n : ℚ) / 100000 := by
  have h := Nat.div_add_mod n 100000
  have h2 : ((100000 * (n / 100000) + n % 100000 : ℕ) : ℚ) = (n : ℚ) := by
    exact_mod_cast congrArg (Nat.cast : ℕ → ℚ) h
  push_cast at h2
  field_simp
  linarith

/-- The integer minutes field stays at most 59. -/
theorem ddMinutes_floor_le (c : ℚ) : (⌊ddMinutes c⌋).toNat ≤ 59 := by
  have h : ⌊ddMinutes c⌋ < 60 := Int.floor_lt.mpr (by exact_mod_cast ddMinutes_lt c)
  omega

/-- Evaluating `dms_to_dd` on a formatted fragment with an appended
hemisphere letter, when the rounded seconds stay below 60: the parse
succeeds and returns the signed, re-rounded sum of the three rendered
fields. -/
theorem dms_of_rendered (c : ℚ) (dir : Char)
    (hdir : dir = 'N' ∨ dir = 'S' ∨ dir = 'E' ∨ dir = 'W')
    (hdeg : ddDegrees c < 1000)
    (hsec : rhe (ddSeconds c * 100000) < 6000000) :
    dms_to_dd (String.mk (dd_to_dms_chars c ++ [dir])) =
      .ok (if dir = 'N' ∨ dir = 'E'
        then round5 ((ddDegrees c : ℚ) + ((⌊ddMinutes c⌋).toNat : ℚ) / 60 +
          ((rhe (ddSeconds c * 100000)).toNat : ℚ) / 100000 / 3600)
        else -round5 ((ddDegrees c : ℚ) + ((⌊ddMinutes c⌋).toNat : ℚ) / 60 +
          ((rhe (ddSeconds c * 100000)).toNat : ℚ) / 100000 / 3600)) := by
  have hnn : 0 ≤ rhe (ddSeconds c * 100000) :=
    rhe_nonneg _ (mul_nonneg (ddSeconds_nonneg c) (by norm_num))
  have hn6 : (rhe (ddSeconds c * 100000)).toNat < 6000000 := by omega
  have hsi : (rhe (ddSeconds c * 100000)).toNat / 100000 ≤ 59 := by omega
  have hsf : (rhe (ddSeconds c * 100000)).toNat % 100000 < 100000 := by omega
  have hmatch : matchDms (String.mk (dd_to_dms_chars c ++ [dir])) =
      some (String.mk (natDigits (ddDegrees c)),
        String.mk (natDigits (⌊ddMinutes c⌋).toNat),
        String.mk (natDigits ((rhe (ddSeconds c * 100000)).toNat / 100000) ++
          '.' :: pad5 ((rhe (ddSeconds c * 100000)).toNat % 100000)),
        String.mk [dir]) := by
    show matchDmsL (dd_to_dms_chars c ++ [dir]) = _
    rw [dd_chars_append_dir]
    exact matchDmsL_render (ddDegrees c) (⌊ddMinutes c⌋).toNat
      ((rhe (ddSeconds c * 100000)).toNat / 100000)
      (pad5 ((rhe (ddSeconds c * 100000)).toNat % 100000)) dir
      hdeg (ddMinutes_floor_le c) hsi (pad5_all_digit _) hdir
  rw [dms_to_dd_groups _ _ hmatch]
  simp only [ddFromGroups, pyFloat_natDigits, pyFloat_fixed _ _ hsf]
  rw [nat_div_mod_cast]
  rcases hdir with rfl | rfl | rfl | rfl <;> simp

/-- Decomposition of the magnitude into the three formatted fields. -/
theorem abs_decomp (c : ℚ) :
    |c| = (ddDegrees c : ℚ) + ((⌊ddMinutes c⌋).toNat : ℚ) / 60 + ddSeconds c / 3600 := by
  have h1 : (⌊|c|⌋ : ℚ) + Int.fract |c| = |c| := Int.floor_add_fract _
  have h2 : (⌊ddMinutes c⌋ : ℚ) + Int.fract (ddMinutes c) = ddMinutes c :=
    Int.floor_add_fract _
  have h3 : ddMinutes c = Int.fract |c| * 60 := rfl
  have h4 : ddSeconds c = Int.fract (ddMinutes c) * 60 := rfl
  have hd : ((ddDegrees c : ℕ) : ℚ) = (⌊|c|⌋ : ℚ) := by
    unfold ddDegrees
    exact_mod_cast congrArg (Int.cast : ℤ → ℚ)
      (Int.toNat_of_nonneg (Int.floor_nonneg.mpr (abs_nonneg c)))
  have hm : (((⌊ddMinutes c⌋).toNat : ℕ) : ℚ) = (⌊ddMinutes c⌋ : ℚ) := by
    exact_mod_cast congrArg (Int.cast : ℤ → ℚ)
      (Int.toNat_of_nonneg (Int.floor_nonneg.mpr (ddMinutes_nonneg c)))
  rw [hd, hm]
  linarith

/-- The rounding `rhe` moves a value by at most one half. -/
theorem rhe_close (x : ℚ) : |(rhe x : ℚ) - x| ≤ 1 / 2 := by
  have hf := Int.fract_nonneg x
  have hf1 := Int.fract_lt_one x
  have hx : (⌊x⌋ : ℚ) = x - Int.fract x := by
    rw [← Int.self_sub_fract x]
  unfold rhe
  split_ifs with h1 h2 h3 <;> rw [abs_le] <;> constructor <;> push_cast <;>
    rw [hx] <;> linarith

/-- Python `round(x, 5)` moves a value by at most half of `1e-5`. -/
theorem round5_close (x : ℚ) : |round5 x - x| ≤ 1 / 200000 := by
  have h := rhe_close (x * 100000)
  unfold round5
  rw [abs_le] at h ⊢
  constructor <;> [linarith [h.1]; linarith [h.2]]

/-- The displayed five-decimal seconds value moves the true seconds by at
most half of `1e-5`. -/
theorem fmt5Val_close (x : ℚ) (hx : 0 ≤ x) : |fmt5Val x - x| ≤ 1 / 200000 := by
  have h := rhe_close (x * 100000)
  have hnn : 0 ≤ rhe (x * 100000) := rhe_nonneg _ (by positivity)
  have hc : (((rhe (x * 100000)).toNat : ℕ) : ℚ) = ((rhe (x * 100000) : ℤ) : ℚ) := by
    exact_mod_cast congrArg (Int.cast : ℤ → ℚ) (Int.toNat_of_nonneg hnn)
  unfold fmt5Val
  rw [hc, abs_le] at *
  obtain ⟨ha, hb⟩ := h
  constructor <;> [linarith; linarith]

/-- The re-parsed value is within `1e-5` of the original magnitude. -/
theorem roundtrip_mag_close (c : ℚ) :
    abs (round5 ((ddDegrees c : ℚ) + ((⌊ddMinutes c⌋).toNat : ℚ) / 60 +
      ((rhe (ddSeconds c * 100000)).toNat : ℚ) / 100000 / 3600) - |c|) ≤ 1 / 100000 := by
  have habs := abs_decomp c
  have hfv := fmt5Val_close (ddSeconds c) (ddSeconds_nonneg c)
  have hr5 := round5_close ((ddDegrees c : ℚ) + ((⌊ddMinutes c⌋).toNat : ℚ) / 60 +
    ((rhe (ddSeconds c * 100000)).toNat : ℚ) / 100000 / 3600)
  have hval : ((ddDegrees c : ℚ) + ((⌊ddMinutes c⌋).toNat : ℚ) / 60 +
      ((rhe (ddSeconds c * 100000)).toNat : ℚ) / 100000 / 3600) - |c| =
      (fmt5Val (ddSeconds c) - ddSeconds c) / 3600 := by
    rw [habs]
    unfold fmt5Val
    ring
  have hmid : abs (((ddDegrees c : ℚ) + ((⌊ddMinutes c⌋).toNat : ℚ) / 60 +
      ((rhe (ddSeconds c * 100000)).toNat : ℚ) / 100000 / 3600) - |c|) ≤
      1 / 720000000 := by
    rw [hval, abs_div, abs_of_pos (by norm_num : (0:ℚ) < 3600),
      div_le_iff₀ (by norm_num : (0:ℚ) < 3600)]
    calc |fmt5Val (ddSeconds c) - ddSeconds c| ≤ 1 / 200000 := hfv
      _ ≤ 1 / 720000000 * 3600 := by norm_num
  calc abs (round5 ((ddDegrees c : ℚ) + ((⌊ddMinutes c⌋).toNat : ℚ) / 60 +
      ((rhe (ddSeconds c * 100000)).toNat : ℚ) / 100000 / 3600) - |c|) ≤
      abs (round5 ((ddDegrees c : ℚ) + ((⌊ddMinutes c⌋).toNat : ℚ) / 60 +
        ((rhe (ddSeconds c * 100000)).toNat : ℚ) / 100000 / 3600) -
        ((ddDegrees c : ℚ) + ((⌊ddMinutes c⌋).toNat : ℚ) / 60 +
        ((rhe (ddSeconds c * 100000)).toNat : ℚ) / 100000 / 3600)) +
      abs (((ddDegrees c : ℚ) + ((⌊ddMinutes c⌋).toNat : ℚ) / 60 +
        ((rhe (ddSeconds c * 100000)).toNat : ℚ) / 100000 / 3600) - |c|) :=
      abs_sub_le _ _ _
    _ ≤ 1 / 200000 + 1 / 720000000 := add_le_add hr5 hmid
    _ ≤ 1 / 100000 := by norm_num

/-- Degrees of an in-domain coordinate render with at most three digits. -/
theorem ddDegrees_lt_1000 (c : ℚ) (hc : |c| ≤ 180) : ddDegrees c < 1000 := by
  have h1 : ⌊|c|⌋ ≤ ⌊(180 : ℚ)⌋ := Int.floor_le_floor hc
  have h2 : ⌊(180 : ℚ)⌋ = 180 := by norm_num
  unfold ddDegrees
  omega

/-- C1, amended: for in-domain coordinates whose five-decimal seconds field
does not round up to `60.00000`, the DD→DMS→DD round trip through
`latdd_to_latdms` (resp. `londd_to_londms`) and `dms_to_dd` succeeds and
returns a value within `1e-5` degrees of the original. -/
theorem c1_roundtrip_amended (la lo : ℚ)
    (hla1 : -90 ≤ la) (hla2 : la ≤ 90)
    (hlas : rhe (ddSeconds la * 100000) < 6000000)
    (hlo1 : -180 ≤ lo) (hlo2 : lo ≤ 180)
    (hlos : rhe (ddSeconds lo * 100000) < 6000000) :
    (∃ s w, latdd_to_latdms la = .ok s ∧ dms_to_dd s = .ok w ∧
      |w - la| ≤ 1 / 100000) ∧
    (∃ s w, londd_to_londms lo = .ok s ∧ dms_to_dd s = .ok w ∧
      |w - lo| ≤ 1 / 100000) := by
  constructor
  · have habs : |la| ≤ 180 := by rw [abs_le]; constructor <;> linarith
    have hdeg := ddDegrees_lt_1000 la habs
    have hcl := roundtrip_mag_close la
    have hlat : latdd_to_latdms la =
        .ok (String.mk (dd_to_dms_chars la ++ [if 0 < la then 'N' else 'S'])) := by
      unfold latdd_to_latdms
      rw [if_pos ⟨hla1, hla2⟩]
    by_cases hpos : 0 < la
    · have h := dms_of_rendered la 'N' (Or.inl rfl) hdeg hlas
      rw [if_pos (Or.inl rfl : 'N' = 'N' ∨ 'N' = 'E')] at h
      exact ⟨_, _, by rw [hlat, if_pos hpos], h, by rwa [abs_of_pos hpos] at hcl⟩
    · have h := dms_of_rendered la 'S' (Or.inr (Or.inl rfl)) hdeg hlas
      rw [if_neg (by decide : ¬('S' = 'N' ∨ 'S' = 'E'))] at h
      refine ⟨_, _, by rw [hlat, if_neg hpos], h, ?_⟩
      rw [abs_of_nonpos (not_lt.mp hpos)] at hcl
      have he : -round5 ((ddDegrees la : ℚ) + ((⌊ddMinutes la⌋).toNat : ℚ) / 60 +
          ((rhe (ddSeconds la * 100000)).toNat : ℚ) / 100000 / 3600) - la =
          -(round5 ((ddDegrees la : ℚ) + ((⌊ddMinutes la⌋).toNat : ℚ) / 60 +
          ((rhe (ddSeconds la * 100000)).toNat : ℚ) / 100000 / 3600) - -la) := by
        ring
      rw [he, abs_neg]
      exact hcl
  · have habs : |lo| ≤ 180 := by rw [abs_le]; constructor <;> linarith
    have hdeg := ddDegrees_lt_1000 lo habs
    have hcl := roundtrip_mag_close lo
    have hlon : londd_to_londms lo =
        .ok (String.mk (dd_to_dms_chars lo ++ [if 0 < lo then 'E' else 'W'])) := by
      unfold londd_to_londms
      rw [if_pos ⟨hlo1, hlo2⟩]
    by_cases hpos : 0 < lo
    · have h := dms_of_rendered lo 'E' (Or.inr (Or.inr (Or.inl rfl))) hdeg hlos
      rw [if_pos (Or.inr rfl : 'E' = 'N' ∨ 'E' = 'E')] at h
      exact ⟨_, _, by rw [hlon, if_pos hpos], h, by rwa [abs_of_pos hpos] at hcl⟩
    · have h := dms_of_rendered lo 'W' (Or.inr (Or.inr (Or.inr rfl))) hdeg hlos
      rw [if_neg (by decide : ¬('W' = 'N' ∨ 'W' = 'E'))] at h
      refine ⟨_, _, by rw [hlon, if_neg hpos], h, ?_⟩
      rw [abs_of_nonpos (not_lt.mp hpos)] at hcl
      have he : -round5 ((ddDegrees lo : ℚ) + ((⌊ddMinutes lo⌋).toNat : ℚ) / 60 +
          ((rhe (ddSeconds lo * 100000)).toNat : ℚ) / 100000 / 3600) - lo =
          -(round5 ((ddDegrees lo : ℚ) + ((⌊ddMinutes lo⌋).toNat : ℚ) / 60 +
          ((rhe (ddSeconds lo * 100000)).toNat : ℚ) / 100000 / 3600) - -lo) := by
        ring
      rw [he, abs_neg]
      exact hcl

/-- Witness for `c1_roundtrip_amended` at the spec's example coordinates
`-34.7393611` (latitude) and `112.12` (longitude). -/
theorem c1_roundtrip_amended_witness :
    (∃ s w, latdd_to_latdms (-34.7393611 : ℚ) = .ok s ∧ dms_to_dd s = .ok w ∧
      |w - (-34.7393611 : ℚ)| ≤ 1 / 100000) ∧
    (∃ s w, londd_to_londms (112.12 : ℚ) = .ok s ∧ dms_to_dd s = .ok w ∧
      |w - (112.12 : ℚ)| ≤ 1 / 100000) :=
  c1_roundtrip_amended (-34.7393611 : ℚ) (112.12 : ℚ)
    (by norm_num) (by norm_num) (by decide) (by norm_num) (by norm_num) (by decide)
